import Mathlib

/-!
Verification of the dynadot-mcp command-invocation core against its design
specification.

The development shallowly embeds the TypeScript sources:

* src/services/dynadot-client.ts — the DynadotClient class: request building
  (URLSearchParams), transport-outcome classification, and the response
  envelope normalization in DynadotClient.call, plus the individual command
  wrappers (search, setNameservers, setDns, editContact, setWhoisContacts, ...).
* src/config.ts — loadConfig (environment based configuration).
* src/index.ts — main (startup wiring: loadConfig then new DynadotClient).
* src/tools/dns.ts and src/resources/account.ts — representative tool and
  resource handlers (catch blocks rendering failures).

Machine details are modelled explicitly: JavaScript object iteration order is
insertion order, so JSON objects and parameter records are ordered association
lists; URLSearchParams.set replaces the first matching entry in place and
removes later duplicates; JavaScript template interpolation of a value and
JSON.stringify are modelled by jsToString and Json.stringify below.  The
network exchange performed by fetch is abstracted as a function from the built
request to a FetchOutcome; the deadline machinery (AbortController plus a
timer) is visible in this model as the fetch rejection named AbortError, which
is exactly what the source inspects.  The client code signals failures by
throwing Error values; each distinct throw site of DynadotClient.call is a
distinct constructor of CallOutcome, which is the Outcome sum type of the
specification.
-/

namespace DynadotMcp

/-! ### Decimal rendering of natural numbers

Models the decimal stringification performed by JavaScript template
interpolation of an integer-valued number (for array indices in
template keys such as domain0, ns1, and for status codes). -/

/-- Digit characters of a natural number, most significant first; empty for 0.
The first argument is recursion fuel, sufficient whenever it bounds the
number (division by ten shrinks the number strictly). -/
def natDecimalDigitsAux : Nat → Nat → List Char
  | _, 0 => []
  | 0, _ + 1 => []
  | fuel + 1, n + 1 =>
      natDecimalDigitsAux fuel ((n + 1) / 10) ++ [Nat.digitChar ((n + 1) % 10)]

/-- Digit characters of a natural number, most significant first; empty for 0. -/
def natDecimalDigits (n : Nat) : List Char :=
  natDecimalDigitsAux n n

/-- Decimal string of a natural number, as JavaScript renders an integer. -/
def natToDecimal (n : Nat) : String :=
  if n = 0 then "0" else String.mk (natDecimalDigits n)

/-- Decimal string of an integer, as JavaScript renders an integral number. -/
def intToDecimal (n : Int) : String :=
  if n < 0 then "-" ++ natToDecimal n.natAbs else natToDecimal n.natAbs

/-! ### JSON values

A parsed JSON document.  Objects preserve key order (JavaScript objects
iterate string keys in insertion order, which for parsed JSON is document
order).  The repository only ever compares numeric fields against the
integral literals -1 and 0, so numbers are carried as integers. -/

/-- A parsed JSON value as the JavaScript runtime presents it. -/
inductive Json where
  | null
  | bool (b : Bool)
  | num (n : Int)
  | str (s : String)
  | arr (elems : List Json)
  | obj (fields : List (String × Json))

/-- Suffix test on strings, modelling the JavaScript endsWith used on the
top-level keys (stated over the character lists so that it evaluates by the
kernel). -/
def strEndsWith (s suffixStr : String) : Bool :=
  suffixStr.data.isSuffixOf s.data

/-- Property access: the first field with the given key when the value is an
object, and undefined (none) otherwise — this models both json[responseKey]
and the optional-chained inner?.ResponseCode accesses of the source. -/
def Json.getProp : Json → String → Option Json
  | .obj fields, k => (fields.find? (fun p => p.1 = k)).map (·.2)
  | _, _ => none

/-- Top-level keys of the parsed body, in iteration order: the keys of an
object, and no keys otherwise.  Models Object.keys on the parsed value. -/
def Json.topKeys : Json → List String
  | .obj fields => fields.map (·.1)
  | _ => []

/-- JavaScript truthiness of a defined value. -/
def Json.truthy : Json → Bool
  | .null => false
  | .bool b => b
  | .num n => n != 0
  | .str s => s != ""
  | .arr _ => true
  | .obj _ => true

/-- JavaScript truthiness of a possibly-undefined value. -/
def optTruthy : Option Json → Bool
  | some j => j.truthy
  | none => false

/-- Escape of one character inside a JSON string literal, per JSON.stringify. -/
def escapeJsonChar (c : Char) : String :=
  if c = '"' then "\\\""
  else if c = '\\' then "\\\\"
  else if c = '\n' then "\\n"
  else if c = '\t' then "\\t"
  else if c = '\r' then "\\r"
  else String.singleton c

/-- Escape of a JSON string body, per JSON.stringify (control characters other
than newline, tab and carriage return are left unescaped by this model; no
input in this development contains them). -/
def escapeJson (s : String) : String :=
  String.join (s.data.map escapeJsonChar)

mutual

/-- Compact serialization of a JSON value, modelling JSON.stringify(v). -/
def Json.stringify : Json → String
  | .null => "null"
  | .bool true => "true"
  | .bool false => "false"
  | .num n => intToDecimal n
  | .str s => "\"" ++ escapeJson s ++ "\""
  | .arr elems => "[" ++ Json.stringifyElems elems ++ "]"
  | .obj fields => "\x7b" ++ Json.stringifyFields fields ++ "\x7d"

/-- Comma-joined serialization of array elements. -/
def Json.stringifyElems : List Json → String
  | [] => ""
  | [x] => x.stringify
  | x :: y :: rest => x.stringify ++ "," ++ Json.stringifyElems (y :: rest)

/-- Comma-joined serialization of object members. -/
def Json.stringifyFields : List (String × Json) → String
  | [] => ""
  | [p] => "\"" ++ escapeJson p.1 ++ "\":" ++ p.2.stringify
  | p :: q :: rest =>
      "\"" ++ escapeJson p.1 ++ "\":" ++ p.2.stringify ++ "," ++
        Json.stringifyFields (q :: rest)

end

mutual

/-- Coercion of a defined value to a string as a JavaScript template literal
performs it: strings pass through, arrays join their elements with commas
(null elements become empty), plain objects render as [object Object]. -/
def Json.jsToString : Json → String
  | .null => "null"
  | .bool true => "true"
  | .bool false => "false"
  | .num n => intToDecimal n
  | .str s => s
  | .arr elems => Json.joinElems elems
  | .obj _ => "[object Object]"

/-- Array-to-string join, per Array.prototype.toString. -/
def Json.joinElems : List Json → String
  | [] => ""
  | [x] => Json.elemToString x
  | x :: y :: rest => Json.elemToString x ++ "," ++ Json.joinElems (y :: rest)

/-- Element coercion inside an array join: null renders as the empty string. -/
def Json.elemToString : Json → String
  | .null => ""
  | j => j.jsToString

end

/-! ### The client: configuration and request building
(src/services/dynadot-client.ts) -/

/-- Production endpoint (PROD_URL in the source). -/
def PROD_URL : String := "https://api.dynadot.com/api3.json"

/-- Sandbox endpoint (SANDBOX_URL in the source). -/
def SANDBOX_URL : String := "https://api-sandbox.dynadot.com/api3.json"

/-- Immutable per-client state set by the DynadotClient constructor. -/
structure DynadotClient where
  baseUrl : String
  apiKey : String
  timeoutMs : Nat

/-- The value of the constructor default for timeoutMs (30_000 in the source). -/
def defaultTimeoutMs : Nat := 30000

/-- The DynadotClient constructor with an explicit timeout. -/
def DynadotClient.make (apiKey : String) (sandbox : Bool) (timeoutMs : Nat) :
    DynadotClient :=
  { baseUrl := if sandbox then SANDBOX_URL else PROD_URL
    apiKey := apiKey
    timeoutMs := timeoutMs }

/-- The DynadotClient constructor at its default timeout, as index.ts calls it. -/
def DynadotClient.makeDefault (apiKey : String) (sandbox : Bool) : DynadotClient :=
  DynadotClient.make apiKey sandbox defaultTimeoutMs

/-- Caller-supplied parameters: the entries of a Record from string to string
in insertion order.  A none value models an undefined entry (the source
guards against it explicitly even though the type promises a string). -/
abbrev Params := List (String × Option String)

/-- URLSearchParams.set: replace the value of the first entry with the given
name in place, delete any later entries with that name, or append a new entry
at the end when the name is absent. -/
def setParam : List (String × String) → String → String → List (String × String)
  | [], k, v => [(k, v)]
  | p :: ps, k, v =>
      if p.1 = k then (k, v) :: ps.filter (fun q => q.1 ≠ k)
      else p :: setParam ps k v

/-- Application of the caller-parameter loop of DynadotClient.call to search
parameters already holding earlier entries: entries whose value is undefined
or the empty string are skipped, every other entry is set. -/
def applyParams (init : List (String × String)) (ps : Params) :
    List (String × String) :=
  ps.foldl
    (fun acc kv =>
      match kv.2 with
      | some v => if v ≠ "" then setParam acc kv.1 v else acc
      | none => acc)
    init

/-- The outbound query built by DynadotClient.call: the credential under key,
the command under command, then the caller parameters in iteration order. -/
def buildRequest (c : DynadotClient) (command : String) (params : Option Params) :
    List (String × String) :=
  let base := setParam (setParam [] "key" c.apiKey) "command" command
  match params with
  | some ps => applyParams base ps
  | none => base

/-- Value of the first entry with the given name in a built request or record. -/
def findVal (ps : List (String × String)) (k : String) : Option String :=
  (ps.find? (fun p => p.1 = k)).map (·.2)

/-! ### The exchange and outcome classification (DynadotClient.call) -/

/-- Result of reading the response body: a parsed JSON document, or the
message of the rejection raised by response.json() on malformed content. -/
inductive BodyParse where
  | ok (json : Json)
  | invalid (message : String)

/-- A completed HTTP exchange as the fetch Response presents it. -/
structure HttpResponse where
  status : Nat
  statusText : String
  body : BodyParse

/-- Observable outcome of the fetch call: either the promise rejected with an
Error carrying a name and a message (name AbortError exactly when the abort
signal fired, which in DynadotClient.call happens when the deadline timer
ran out), or an HTTP exchange completed. -/
inductive FetchOutcome where
  | failed (name message : String)
  | completed (response : HttpResponse)

/-- Outcome of one DynadotClient.call invocation.  success is the value
returned; each other constructor is one distinct throw site of the source,
carrying the message of the thrown Error.  In the vocabulary of the
specification: timeoutError is Failure(Timeout); transportError, httpError
and parseError are Failure(Transport); apiError is Failure(Application). -/
inductive CallOutcome where
  | success (body : Json)
  | timeoutError (message : String)
  | transportError (message : String)
  | httpError (message : String)
  | parseError (message : String)
  | apiError (message : String)

/-- Message selection of the envelope error branch: the template interpolation
of inner.Error or-else inner.Message or-else JSON.stringify(inner). -/
def envelopeErrorMessage (inner : Json) : String :=
  if optTruthy (inner.getProp "Error") then
    ((inner.getProp "Error").map Json.jsToString).getD ""
  else if optTruthy (inner.getProp "Message") then
    ((inner.getProp "Message").map Json.jsToString).getD ""
  else
    inner.stringify

/-- Check for a numeric ResponseCode strictly equal to -1. -/
def isResponseCodeNegOne : Option Json → Bool
  | some (.num n) => n == -1
  | _ => false

/-- Check for a Status field strictly equal to the string error. -/
def isStatusError : Option Json → Bool
  | some (.str s) => s == "error"
  | _ => false

/-- Envelope normalization applied by DynadotClient.call to the parsed body of
a success-status response: scan the top-level keys for the first one ending
in Response; when its object signals an error (ResponseCode -1 or Status
error), throw the Dynadot API error with the selected message; otherwise
return the whole parsed body. -/
def normalizeBody (json : Json) : CallOutcome :=
  match json.topKeys.find? (fun k => strEndsWith k "Response") with
  | some responseKey =>
      match json.getProp responseKey with
      | some inner =>
          if isResponseCodeNegOne (inner.getProp "ResponseCode")
              || isStatusError (inner.getProp "Status") then
            .apiError ("Dynadot API error: " ++ envelopeErrorMessage inner)
          else
            .success json
      | none => .success json
  | none => .success json

/-- Success-status test of the fetch Response (response.ok). -/
def responseOk (status : Nat) : Bool :=
  200 ≤ status && status ≤ 299

/-- One invocation of DynadotClient.call.  The network argument abstracts the
fetch exchange as a function of the built outbound request.  A rejection
named AbortError becomes the timeout error naming the command and the
configured duration; any other rejection is rethrown unchanged; a completed
exchange with a non-success status becomes the HTTP error naming the status;
otherwise the body is parsed and normalized. -/
def DynadotClient.call (c : DynadotClient) (command : String)
    (params : Option Params)
    (network : List (String × String) → FetchOutcome) : CallOutcome :=
  match network (buildRequest c command params) with
  | .failed name message =>
      if name = "AbortError" then
        .timeoutError ("Dynadot API request timed out after " ++
          natToDecimal c.timeoutMs ++ "ms: " ++ command)
      else
        .transportError message
  | .completed r =>
      if responseOk r.status then
        match r.body with
        | .invalid message => .parseError message
        | .ok json => normalizeBody json
      else
        .httpError ("Dynadot API HTTP error: " ++ natToDecimal r.status ++
          " " ++ r.statusText)

/-! ### Command wrappers (src/services/dynadot-client.ts, lower half)

JavaScript object-literal evaluation order matters here: in an object literal
a property assignment to a key that already exists updates the value in place
(keeping the original position), and a fresh key is appended.  objSet and
objMerge model that, so a spread written after a fixed property can replace
the fixed value. -/

/-- Record entries of a plain JavaScript object, in insertion order. -/
abbrev RecordEntries := List (String × String)

/-- Property assignment on an object under construction: update in place when
the key exists, append otherwise. -/
def objSet : RecordEntries → String → String → RecordEntries
  | [], k, v => [(k, v)]
  | p :: ps, k, v =>
      if p.1 = k then (k, v) :: ps else p :: objSet ps k v

/-- Spread of a record into an object literal already holding earlier
properties, assigning each entry in order. -/
def objMerge (init : RecordEntries) (rest : RecordEntries) : RecordEntries :=
  rest.foldl (fun acc kv => objSet acc kv.1 kv.2) init

/-- Lift of record entries to caller parameters (every value is defined). -/
def recordToParams (r : RecordEntries) : Params :=
  r.map (fun p => (p.1, some p.2))

/-- Options bag of DynadotClient.search. -/
structure SearchOptions where
  showPrice : Option Bool
  currency : Option String
  language : Option String

/-- Option entries the source adds to the search parameters under JavaScript
truthiness tests (showPrice when true; currency and language when present and
non-empty). -/
def searchOptionParams (options : Option SearchOptions) : RecordEntries :=
  match options with
  | some o =>
      (if o.showPrice = some true then [("show_price", "1")] else [])
        ++ (match o.currency with
            | some cur => if cur ≠ "" then [("currency", cur)] else []
            | none => [])
        ++ (match o.language with
            | some lang => if lang ≠ "" then [("language", lang)] else []
            | none => [])
  | none => []

/-- Parameters built by DynadotClient.search: indexed keys domain0, domain1,
... in input order, then the option fields. -/
def DynadotClient.searchParams (domains : List String)
    (options : Option SearchOptions) : Params :=
  recordToParams
    ((domains.enum.map (fun p => ("domain" ++ natToDecimal p.1, p.2)))
      ++ searchOptionParams options)

/-- DynadotClient.search. -/
def DynadotClient.search (c : DynadotClient) (domains : List String)
    (options : Option SearchOptions)
    (network : List (String × String) → FetchOutcome) : CallOutcome :=
  c.call "search" (some (DynadotClient.searchParams domains options)) network

/-- Parameters built by DynadotClient.setNameservers: the domain, then indexed
keys ns0, ns1, ... in input order. -/
def DynadotClient.setNameserversParams (domain : String)
    (nameservers : List String) : Params :=
  recordToParams
    (("domain", domain) ::
      nameservers.enum.map (fun p => ("ns" ++ natToDecimal p.1, p.2)))

/-- DynadotClient.setNameservers. -/
def DynadotClient.setNameservers (c : DynadotClient) (domain : String)
    (nameservers : List String)
    (network : List (String × String) → FetchOutcome) : CallOutcome :=
  c.call "set_ns" (some (DynadotClient.setNameserversParams domain nameservers))
    network

/-- Object literal of DynadotClient.setDns: domain spread with the records. -/
def DynadotClient.setDnsParams (domain : String) (records : RecordEntries) :
    Params :=
  recordToParams (objMerge [("domain", domain)] records)

/-- DynadotClient.setDns. -/
def DynadotClient.setDns (c : DynadotClient) (domain : String)
    (records : RecordEntries)
    (network : List (String × String) → FetchOutcome) : CallOutcome :=
  c.call "set_dns2" (some (DynadotClient.setDnsParams domain records)) network

/-- Object literal of DynadotClient.editContact: contact_id spread with the
caller fields. -/
def DynadotClient.editContactParams (contactId : String)
    (fields : RecordEntries) : Params :=
  recordToParams (objMerge [("contact_id", contactId)] fields)

/-- DynadotClient.editContact. -/
def DynadotClient.editContact (c : DynadotClient) (contactId : String)
    (fields : RecordEntries)
    (network : List (String × String) → FetchOutcome) : CallOutcome :=
  c.call "edit_contact" (some (DynadotClient.editContactParams contactId fields))
    network

/-- Object literal of DynadotClient.setWhoisContacts: domain spread with the
contacts record. -/
def DynadotClient.setWhoisContactsParams (domain : String)
    (contacts : RecordEntries) : Params :=
  recordToParams (objMerge [("domain", domain)] contacts)

/-- DynadotClient.setWhoisContacts. -/
def DynadotClient.setWhoisContacts (c : DynadotClient) (domain : String)
    (contacts : RecordEntries)
    (network : List (String × String) → FetchOutcome) : CallOutcome :=
  c.call "set_whois"
    (some (DynadotClient.setWhoisContactsParams domain contacts)) network

/-! ### Configuration and startup (src/config.ts, src/index.ts)

The environment is the pair of variables the loader reads.  loadConfig throws
when the credential is missing or empty (the source tests its JavaScript
truthiness), and main catches any error from startup and exits the process,
so a loader throw means the server never starts. -/

/-- The two environment variables read by loadConfig. -/
structure Env where
  DYNADOT_API_KEY : Option String
  DYNADOT_SANDBOX : Option String

/-- The configuration record the loader produces. -/
structure DynadotConfig where
  apiKey : String
  sandbox : Bool

/-- Truthiness test of an optional environment string (undefined and the
empty string are falsy). -/
def envTruthy : Option String → Bool
  | some s => s != ""
  | none => false

/-- The message of the error loadConfig throws on a missing credential. -/
def missingKeyMessage : String :=
  "DYNADOT_API_KEY environment variable is required. " ++
    "Get your API key from https://www.dynadot.com/account/domain/setting/api.html"

/-- loadConfig from src/config.ts: throw when DYNADOT_API_KEY is absent or
empty, otherwise read the sandbox flag, true exactly for the strings true
and 1. -/
def loadConfig (env : Env) : Except String DynadotConfig :=
  if envTruthy env.DYNADOT_API_KEY then
    .ok
      { apiKey := env.DYNADOT_API_KEY.getD ""
        sandbox := env.DYNADOT_SANDBOX = some "true" ∨
          env.DYNADOT_SANDBOX = some "1" }
  else
    .error missingKeyMessage

/-- Result of the startup sequence of main in src/index.ts. -/
inductive StartupResult where
  | started (config : DynadotConfig) (client : DynadotClient)
  | fatal (message : String)

/-- The startup sequence of main: load the configuration, then construct the
client from it; any thrown error is caught by the top-level handler, which
logs and exits the process without starting the server. -/
def serverStartup (env : Env) : StartupResult :=
  match loadConfig env with
  | .error message => .fatal message
  | .ok config =>
      .started config (DynadotClient.makeDefault config.apiKey config.sandbox)

/-! ### Pretty serialization, tool and resource handlers
(src/tools/dns.ts, src/resources/account.ts)

JSON.stringify(value, null, 2) renders nested structures over multiple lines
with two-space indentation and a space after each colon. -/

/-- Spaces of the indentation at a nesting depth. -/
def jsonIndent (depth : Nat) : String :=
  String.mk (List.replicate (2 * depth) ' ')

mutual

/-- Pretty serialization at a nesting depth, per JSON.stringify(v, null, 2). -/
def Json.prettyAux : Nat → Json → String
  | _, .null => "null"
  | _, .bool true => "true"
  | _, .bool false => "false"
  | _, .num n => intToDecimal n
  | _, .str s => "\"" ++ escapeJson s ++ "\""
  | _, .arr [] => "[]"
  | depth, .arr (x :: rest) =>
      "[\n" ++ Json.prettyElems (depth + 1) x rest ++ "\n" ++
        jsonIndent depth ++ "]"
  | _, .obj [] => "\x7b\x7d"
  | depth, .obj (p :: rest) =>
      "\x7b\n" ++ Json.prettyFields (depth + 1) p rest ++ "\n" ++
        jsonIndent depth ++ "\x7d"
termination_by _ j => sizeOf j

/-- Indented, comma-and-newline joined array elements. -/
def Json.prettyElems : Nat → Json → List Json → String
  | depth, x, [] => jsonIndent depth ++ Json.prettyAux depth x
  | depth, x, y :: rest =>
      jsonIndent depth ++ Json.prettyAux depth x ++ ",\n" ++
        Json.prettyElems depth y rest
termination_by _ x rest => sizeOf x + sizeOf rest

/-- Indented, comma-and-newline joined object members. -/
def Json.prettyFields : Nat → (String × Json) → List (String × Json) → String
  | depth, (k, v), [] =>
      jsonIndent depth ++ "\"" ++ escapeJson k ++ "\": " ++
        Json.prettyAux depth v
  | depth, (k, v), q :: rest =>
      jsonIndent depth ++ "\"" ++ escapeJson k ++ "\": " ++
        Json.prettyAux depth v ++ ",\n" ++ Json.prettyFields depth q rest
termination_by _ p rest => sizeOf p + sizeOf rest
decreasing_by all_goals (simp; omega)

end

/-- JSON.stringify(value, null, 2). -/
def Json.stringifyPretty (j : Json) : String :=
  Json.prettyAux 0 j

/-- The message the handlers extract from a caught value: the message of an
Error (every throw site of the client throws an Error). -/
def CallOutcome.thrownMessage : CallOutcome → Option String
  | .success _ => none
  | .timeoutError m => some m
  | .transportError m => some m
  | .httpError m => some m
  | .parseError m => some m
  | .apiError m => some m

/-- One content block of a tool reply. -/
structure ToolContent where
  text : String

/-- A structured tool reply as the handlers of src/tools return it: content
blocks, and the error marker (absent, that is false, on success). -/
structure ToolReply where
  content : List ToolContent
  isError : Bool

/-- The get_dns tool handler of registerDnsTools (src/tools/dns.ts): await
the client call inside try, render the result as pretty JSON text; on a
caught failure return the message under a Failed-to prefix with the isError
marker set — the handler itself never throws. -/
def getDnsToolHandler (result : CallOutcome) : ToolReply :=
  match result with
  | .success body =>
      { content := [{ text := body.stringifyPretty }], isError := false }
  | failure =>
      { content := [{ text := "Failed to get DNS records: " ++
          (failure.thrownMessage.getD "") }]
        isError := true }

/-- One content block of a resource reply. -/
structure ResourceContent where
  uri : String
  mimeType : String
  text : String

/-- A structured resource reply. -/
structure ResourceReply where
  contents : List ResourceContent

/-- The account resource handler of registerAccountResource
(src/resources/account.ts): render the result as pretty JSON; on a caught
failure render the object holding the message under the error key — the
handler itself never throws. -/
def accountResourceHandler (result : CallOutcome) : ResourceReply :=
  match result with
  | .success body =>
      { contents := [{ uri := "dynadot://account"
                       mimeType := "application/json"
                       text := body.stringifyPretty }] }
  | failure =>
      { contents := [{ uri := "dynadot://account"
                       mimeType := "application/json"
                       text := Json.stringifyPretty
                         (.obj [("error",
                           .str (failure.thrownMessage.getD ""))]) }] }

/-! ### Groundwork lemmas: strings and decimal keys -/

/-- Strings with equal character data are equal. -/
theorem string_data_eq {s t : String} (h : s.data = t.data) : s = t := by
  cases s; cases t; exact congrArg String.mk h

/-- Numeric value of a digit-character list, most significant first. -/
def decDigitsValue (l : List Char) : Nat :=
  l.foldl (fun acc c => 10 * acc + (c.toNat - 48)) 0

theorem decDigitsValue_append_digit (l : List Char) (c : Char) :
    decDigitsValue (l ++ [c]) = 10 * decDigitsValue l + (c.toNat - 48) := by
  simp [decDigitsValue]

theorem digitChar_toNat_sub (r : Nat) (h : r < 10) :
    (Nat.digitChar r).toNat - 48 = r := by
  interval_cases r <;> decide

theorem decDigitsValue_natDecimalDigitsAux :
    ∀ fuel n, n ≤ fuel → decDigitsValue (natDecimalDigitsAux fuel n) = n := by
  intro fuel
  induction fuel with
  | zero =>
      intro n hn
      interval_cases n
      simp [natDecimalDigitsAux, decDigitsValue]
  | succ fuel ih =>
      intro n hn
      match n with
      | 0 => simp [natDecimalDigitsAux, decDigitsValue]
      | m + 1 =>
          have hdiv : (m + 1) / 10 ≤ fuel := by
            have := Nat.div_lt_self (Nat.succ_pos m) (by decide : 1 < 10)
            omega
          rw [natDecimalDigitsAux, decDigitsValue_append_digit,
            ih ((m + 1) / 10) hdiv,
            digitChar_toNat_sub ((m + 1) % 10) (Nat.mod_lt _ (by decide))]
          omega

theorem decDigitsValue_natDecimalDigits (n : Nat) :
    decDigitsValue (natDecimalDigits n) = n :=
  decDigitsValue_natDecimalDigitsAux n n (Nat.le_refl n)

theorem natToDecimal_inj {m n : Nat} (h : natToDecimal m = natToDecimal n) :
    m = n := by
  by_cases hm : m = 0 <;> by_cases hn : n = 0 <;>
    simp [natToDecimal, hm, hn] at h ⊢
  · have hd : decDigitsValue (natDecimalDigits n) = decDigitsValue ['0'] := by
      have : natDecimalDigits n = ['0'] := by
        have := congrArg String.data h
        simpa using this.symm
      rw [this]
    rw [decDigitsValue_natDecimalDigits] at hd
    simp [decDigitsValue] at hd
    omega
  · have hd : decDigitsValue (natDecimalDigits m) = decDigitsValue ['0'] := by
      have : natDecimalDigits m = ['0'] := by
        have := congrArg String.data h
        simpa using this
      rw [this]
    rw [decDigitsValue_natDecimalDigits] at hd
    simp [decDigitsValue] at hd
    omega
  · have hdata : natDecimalDigits m = natDecimalDigits n := by
      have := congrArg String.data h
      simpa using this
    have := congrArg decDigitsValue hdata
    rwa [decDigitsValue_natDecimalDigits, decDigitsValue_natDecimalDigits] at this

/-- Appending distinct tails to one string gives distinct strings. -/
theorem string_append_inj {a s t : String} (h : a ++ s = a ++ t) : s = t := by
  have hd := congrArg String.data h
  rw [String.data_append, String.data_append] at hd
  exact string_data_eq (List.append_cancel_left hd)

/-- Strings whose first characters differ are distinct, even after appending
to the longer one. -/
theorem string_append_ne_of_head_ne (a s b : String) (c₁ c₂ : Char)
    (h₁ : a.data.head? = some c₁) (h₂ : b.data.head? = some c₂)
    (hne : c₁ ≠ c₂) : a ++ s ≠ b := by
  intro h
  have hd := congrArg String.data h
  rw [String.data_append] at hd
  have hh : (a.data ++ s.data).head? = b.data.head? := congrArg List.head? hd
  rw [List.head?_append_of_ne_nil] at hh
  · rw [h₁, h₂] at hh
    exact hne (Option.some.inj hh)
  · intro hnil
    rw [hnil] at h₁
    simp at h₁

/-! ### Groundwork lemmas: request construction -/

theorem findVal_nil (k : String) : findVal [] k = none := rfl

theorem findVal_cons (p : String × String) (ps : List (String × String))
    (k : String) :
    findVal (p :: ps) k = if p.1 = k then some p.2 else findVal ps k := by
  by_cases h : p.1 = k <;> simp [findVal, List.find?_cons, h]

theorem findVal_filter_ne (ps : List (String × String)) (k k2 : String)
    (h : k2 ≠ k) :
    findVal (ps.filter (fun q => q.1 ≠ k)) k2 = findVal ps k2 := by
  induction ps with
  | nil => rfl
  | cons p ps ih =>
      simp only [decide_not] at ih
      by_cases hp : p.1 = k
      · have hne : p.1 ≠ k2 := by rw [hp]; exact Ne.symm h
        simp [List.filter_cons, decide_not, hp, findVal_cons, hne, ih, Ne.symm h]
      · simp [List.filter_cons, decide_not, hp, findVal_cons, ih]

theorem findVal_setParam_self (ps : List (String × String)) (k v : String) :
    findVal (setParam ps k v) k = some v := by
  induction ps with
  | nil => simp [setParam, findVal_cons]
  | cons p ps ih =>
      by_cases hp : p.1 = k
      · simp [setParam, hp, findVal_cons]
      · simp [setParam, hp, findVal_cons, ih]

theorem findVal_setParam_ne (ps : List (String × String)) (k k2 v : String)
    (h : k2 ≠ k) :
    findVal (setParam ps k v) k2 = findVal ps k2 := by
  induction ps with
  | nil => simp [setParam, findVal_cons, Ne.symm h]
  | cons p ps ih =>
      by_cases hp : p.1 = k
      · rw [setParam]
        simp only [hp, if_true]
        rw [findVal_cons, findVal_cons]
        simp only [hp]
        have hk2 : ¬ (k = k2) := Ne.symm h
        simp only [hk2, if_false]
        exact findVal_filter_ne ps k k2 h
      · simp [setParam, hp, findVal_cons, ih]

/-- Kept value of one caller entry: defined and non-empty survives, the rest
is dropped by the builder. -/
def keptValue : Option String → Option String
  | some v => if v ≠ "" then some v else none
  | none => none

/-- Value of the last kept entry with a given name in a parameter list. -/
def lastKept : Params → String → Option String
  | [], _ => none
  | kv :: rest, k =>
      match lastKept rest k with
      | some v => some v
      | none => if kv.1 = k then keptValue kv.2 else none

/-- Characterization of the caller-parameter loop: the first entry with a
given name in the result holds the last kept caller value of that name,
and falls back to the initial entries when the caller supplied none. -/
theorem findVal_applyParams (ps : Params) (init : List (String × String))
    (k : String) :
    findVal (applyParams init ps) k =
      match lastKept ps k with
      | some v => some v
      | none => findVal init k := by
  induction ps generalizing init with
  | nil => simp [applyParams, lastKept]
  | cons kv rest ih =>
      match hv : kv.2 with
      | none =>
          have hstep : applyParams init (kv :: rest) = applyParams init rest := by
            simp [applyParams, hv]
          rw [hstep, ih]
          cases hrest : lastKept rest k <;>
            simp [lastKept, hrest, hv, keptValue]
      | some v =>
          by_cases hve : v = ""
          · have hstep : applyParams init (kv :: rest) = applyParams init rest := by
              simp [applyParams, hv, hve]
            rw [hstep, ih]
            cases hrest : lastKept rest k <;>
              simp [lastKept, hrest, hv, hve, keptValue]
          · have hstep : applyParams init (kv :: rest) =
                applyParams (setParam init kv.1 v) rest := by
              simp [applyParams, hv, hve]
            rw [hstep, ih]
            cases hrest : lastKept rest k
            · by_cases hk : kv.1 = k
              · subst hk
                simp [lastKept, hrest, hv, hve, keptValue,
                  findVal_setParam_self]
              · simp [lastKept, hrest, hv, hve, keptValue, hk,
                  findVal_setParam_ne init kv.1 k v (fun hh => hk hh.symm)]
            · simp [lastKept, hrest]

/-- Entries the builder keeps from the caller parameters: defined and
non-empty values, in order. -/
def keptList : Params → List (String × String)
  | [] => []
  | kv :: rest =>
      match kv.2 with
      | some v => if v ≠ "" then (kv.1, v) :: keptList rest else keptList rest
      | none => keptList rest

theorem setParam_append (ps : List (String × String)) (k v : String)
    (h : ∀ p ∈ ps, p.1 ≠ k) : setParam ps k v = ps ++ [(k, v)] := by
  induction ps with
  | nil => rfl
  | cons p ps ih =>
      have hp : p.1 ≠ k := h p (List.mem_cons_self p ps)
      simp [setParam, hp]
      exact ih (fun q hq => h q (List.mem_cons_of_mem p hq))

theorem applyParams_eq_append (ps : Params) :
    ∀ init, ((keptList ps).map Prod.fst).Nodup →
    (∀ q ∈ keptList ps, ∀ p ∈ init, p.1 ≠ q.1) →
    applyParams init ps = init ++ keptList ps := by
  induction ps with
  | nil => intro init _ _; simp [applyParams, keptList]
  | cons kv rest ih =>
      intro init hnd hfresh
      match hv : kv.2 with
      | none =>
          have hk : keptList (kv :: rest) = keptList rest := by
            simp [keptList, hv]
          rw [hk] at hnd hfresh
          have hstep : applyParams init (kv :: rest) = applyParams init rest := by
            simp [applyParams, hv]
          rw [hstep, ih init hnd hfresh, hk]
      | some v =>
          by_cases hve : v = ""
          · have hk : keptList (kv :: rest) = keptList rest := by
              simp [keptList, hv, hve]
            rw [hk] at hnd hfresh
            have hstep : applyParams init (kv :: rest) = applyParams init rest := by
              simp [applyParams, hv, hve]
            rw [hstep, ih init hnd hfresh, hk]
          · have hk : keptList (kv :: rest) = (kv.1, v) :: keptList rest := by
              simp [keptList, hv, hve]
            rw [hk] at hnd hfresh
            have hnd1 : kv.1 ∉ (keptList rest).map Prod.fst := by
              simpa using (List.nodup_cons.mp hnd).1
            have hnd2 : ((keptList rest).map Prod.fst).Nodup :=
              (List.nodup_cons.mp hnd).2
            have hfr1 : ∀ p ∈ init, p.1 ≠ kv.1 := by
              intro p hp
              exact hfresh (kv.1, v) (List.mem_cons_self _ _) p hp
            have hstep : applyParams init (kv :: rest) =
                applyParams (init ++ [(kv.1, v)]) rest := by
              simp [applyParams, hv, hve, setParam_append init kv.1 v hfr1]
            rw [hstep, ih (init ++ [(kv.1, v)]) hnd2 ?_, hk]
            · simp
            · intro q hq p hp
              rcases List.mem_append.mp hp with hpi | hpl
              · exact hfresh q (List.mem_cons_of_mem _ hq) p hpi
              · have hpv : p = (kv.1, v) := by simpa using hpl
                rw [hpv]
                intro hcontra
                exact hnd1 (by
                  rw [hcontra]
                  exact List.mem_map_of_mem Prod.fst hq)

theorem keptList_recordToParams (r : RecordEntries) :
    keptList (recordToParams r) = r.filter (fun p => p.2 ≠ "") := by
  induction r with
  | nil => rfl
  | cons p r ih =>
      rw [recordToParams, List.map_cons] at *
      by_cases hv : p.2 = "" <;>
        simp [keptList, List.filter_cons, decide_not, hv] <;>
        simpa [recordToParams] using ih

theorem findVal_append (a b : List (String × String)) (k : String) :
    findVal (a ++ b) k = (findVal a k).or (findVal b k) := by
  induction a with
  | nil => simp [findVal]
  | cons p a ih =>
      by_cases hp : p.1 = k <;> simp [findVal_cons, hp, ih]

/-- Lookup in an indexed fan-out list: the key built from index i finds the
element at position i minus the starting index, and nothing at all beyond the
length. -/
theorem findVal_indexedList (pre : String) (xs : List String) :
    ∀ j i : Nat,
      findVal
        ((List.enumFrom j xs).map (fun p => (pre ++ natToDecimal p.1, p.2)))
        (pre ++ natToDecimal i)
      = if i < j then none else xs.get? (i - j) := by
  induction xs with
  | nil =>
      intro j i
      simp [findVal]
  | cons x t ih =>
      intro j i
      by_cases hij : i = j
      · subst hij
        simp [List.enumFrom, findVal_cons]
      · have hkey : pre ++ natToDecimal j ≠ pre ++ natToDecimal i := by
          intro hcontra
          exact hij (natToDecimal_inj (string_append_inj hcontra)).symm
        rw [List.enumFrom, List.map_cons, findVal_cons, if_neg hkey,
          ih (j + 1) i]
        by_cases hlt : i < j
        · rw [if_pos (by omega), if_pos hlt]
        · rw [if_neg (by omega), if_neg hlt]
          have hgt : j < i := by omega
          have hsub : i - j = (i - (j + 1)) + 1 := by omega
          rw [hsub]
          rfl

/-! ### Groundwork lemmas: object literals with spreads -/

/-- Value of the last entry with a given name in a record. -/
def lastSet : RecordEntries → String → Option String
  | [], _ => none
  | kv :: rest, k =>
      match lastSet rest k with
      | some v => some v
      | none => if kv.1 = k then some kv.2 else none

theorem findVal_objSet_self (ps : RecordEntries) (k v : String) :
    findVal (objSet ps k v) k = some v := by
  induction ps with
  | nil => simp [objSet, findVal_cons]
  | cons p ps ih =>
      by_cases hp : p.1 = k
      · simp [objSet, hp, findVal_cons]
      · simp [objSet, hp, findVal_cons, ih]

theorem findVal_objSet_ne (ps : RecordEntries) (k k2 v : String)
    (h : k2 ≠ k) : findVal (objSet ps k v) k2 = findVal ps k2 := by
  induction ps with
  | nil => simp [objSet, findVal_cons, Ne.symm h]
  | cons p ps ih =>
      by_cases hp : p.1 = k
      · simp [objSet, hp, findVal_cons, Ne.symm h, ih]
      · simp [objSet, hp, findVal_cons, ih]

theorem findVal_objMerge (rs : RecordEntries) :
    ∀ (init : RecordEntries) (k : String),
      findVal (objMerge init rs) k =
        match lastSet rs k with
        | some v => some v
        | none => findVal init k := by
  induction rs with
  | nil => intro init k; simp [objMerge, lastSet]
  | cons kv rest ih =>
      intro init k
      have hstep : objMerge init (kv :: rest) =
          objMerge (objSet init kv.1 kv.2) rest := by
        simp [objMerge]
      rw [hstep, ih]
      cases hrest : lastSet rest k
      · by_cases hk : kv.1 = k
        · subst hk
          simp [lastSet, hrest, findVal_objSet_self]
        · simp [lastSet, hrest, hk,
            findVal_objSet_ne init kv.1 k kv.2 (Ne.symm hk)]
      · simp [lastSet, hrest]

theorem lastSet_of_not_mem (rs : RecordEntries) (k : String)
    (h : k ∉ rs.map Prod.fst) : lastSet rs k = none := by
  induction rs with
  | nil => rfl
  | cons kv rest ih =>
      simp only [List.map_cons, List.mem_cons] at h
      push_neg at h
      rw [lastSet, ih h.2]
      simp [Ne.symm h.1]

theorem lastSet_eq_of_mem_nodup (rs : RecordEntries) (k v : String)
    (hnd : (rs.map Prod.fst).Nodup) (hm : (k, v) ∈ rs) :
    lastSet rs k = some v := by
  induction rs with
  | nil => simp at hm
  | cons kv rest ih =>
      rw [List.map_cons] at hnd
      obtain ⟨hnotin, hnd2⟩ := List.nodup_cons.mp hnd
      rcases List.mem_cons.mp hm with hhead | htail
      · have hk : kv.1 = k := by rw [← hhead]
        have hnot : k ∉ rest.map Prod.fst := hk ▸ hnotin
        rw [lastSet, lastSet_of_not_mem rest k hnot]
        simp [hk, ← hhead]
      · rw [lastSet, ih hnd2 htail]

theorem lastKept_of_not_mem (ps : Params) (k : String)
    (h : k ∉ ps.map Prod.fst) : lastKept ps k = none := by
  induction ps with
  | nil => rfl
  | cons kv rest ih =>
      simp only [List.map_cons, List.mem_cons] at h
      push_neg at h
      rw [lastKept, ih h.2]
      simp [Ne.symm h.1]

theorem lastKept_eq_of_mem_nodup (ps : Params) (k : String) (x : Option String)
    (hnd : (ps.map Prod.fst).Nodup) (hm : (k, x) ∈ ps) :
    lastKept ps k = keptValue x := by
  induction ps with
  | nil => simp at hm
  | cons kv rest ih =>
      rw [List.map_cons] at hnd
      obtain ⟨hnotin, hnd2⟩ := List.nodup_cons.mp hnd
      rcases List.mem_cons.mp hm with hhead | htail
      · have hk : kv.1 = k := by rw [← hhead]
        have hnot : k ∉ rest.map Prod.fst := hk ▸ hnotin
        rw [lastKept, lastKept_of_not_mem rest k hnot]
        simp [hk, ← hhead]
      · have hrest := ih hnd2 htail
        rw [lastKept, hrest]
        cases hx : keptValue x
        · have hne : kv.1 ≠ k := by
            intro hcontra
            have hinkeys : k ∈ rest.map Prod.fst :=
              List.mem_map_of_mem Prod.fst htail
            rw [hcontra] at hnotin
            exact hnotin hinkeys
          simp [hne]
        · rfl


/-! ### Bridging lemmas -/

theorem findVal_eq_none_of_keys (ps : List (String × String)) (k : String)
    (h : ∀ p ∈ ps, p.1 ≠ k) : findVal ps k = none := by
  induction ps with
  | nil => rfl
  | cons p ps ih =>
      rw [findVal_cons, if_neg (h p (List.mem_cons_self p ps))]
      exact ih (fun q hq => h q (List.mem_cons_of_mem p hq))

theorem isResponseCodeNegOne_iff (op : Option Json) :
    isResponseCodeNegOne op = true ↔ op = some (.num (-1)) := by
  match op with
  | none => simp [isResponseCodeNegOne]
  | some j =>
      cases j <;> simp [isResponseCodeNegOne]

theorem isStatusError_iff (op : Option Json) :
    isStatusError op = true ↔ op = some (.str "error") := by
  match op with
  | none => simp [isStatusError]
  | some j =>
      cases j <;> simp [isStatusError]

theorem responseOk_iff (status : Nat) :
    responseOk status = true ↔ 200 ≤ status ∧ status ≤ 299 := by
  simp [responseOk]

theorem buildRequest_none (c : DynadotClient) (command : String) :
    buildRequest c command none = [("key", c.apiKey), ("command", command)] := rfl

theorem buildRequest_some (c : DynadotClient) (command : String) (ps : Params) :
    buildRequest c command (some ps) =
      applyParams [("key", c.apiKey), ("command", command)] ps := rfl

/-- Value of a caller-parameter entry as the transport loop receives it. -/
def findParamVal (ps : Params) (k : String) : Option (Option String) :=
  (ps.find? (fun p => p.1 = k)).map (·.2)

theorem findParamVal_recordToParams (r : RecordEntries) (k : String) :
    findParamVal (recordToParams r) k = (findVal r k).map some := by
  induction r with
  | nil => rfl
  | cons p r ih =>
      by_cases hp : p.1 = k
      · simp [findParamVal, recordToParams, List.find?_cons, hp, findVal_cons]
      · have h1 : findParamVal (recordToParams (p :: r)) k =
            findParamVal (recordToParams r) k := by
          simp [findParamVal, recordToParams, List.find?_cons, hp]
        have h2 : findVal (p :: r) k = findVal r k := by
          rw [findVal_cons, if_neg hp]
        rw [h1, h2, ih]

/-! ## Claim C1 -/

/-- Claim C1, counterexample.  The claim states that a caller-supplied
parameter named key (with any non-empty value) does not change the value of
the credential field of the built request.  It does: URLSearchParams.set
replaces the already-set credential entry, so with credential secret and a
caller parameter key=evil, the built request carries key=evil. -/
theorem c1_counterexample :
    findVal
      (buildRequest (DynadotClient.make "secret" false 30000) "list_domain"
        (some [("key", some "evil")])) "key" = some "evil" ∧
    (DynadotClient.make "secret" false 30000).apiKey = "secret" ∧
    "evil" ≠ "secret" := by
  refine ⟨rfl, rfl, by decide⟩

/-- Claim C1, amended.  The built request always carries fields named key and
command: they hold the configured credential and the command name whenever
the caller supplies no kept (defined, non-empty) parameter of that name, but
a kept caller parameter named key or command replaces the corresponding
value (the last kept one wins). -/
theorem c1_auth_fields (c : DynadotClient) (command : String) (ps : Params) :
    findVal (buildRequest c command none) "key" = some c.apiKey ∧
    findVal (buildRequest c command none) "command" = some command ∧
    findVal (buildRequest c command (some ps)) "key" =
      some ((lastKept ps "key").getD c.apiKey) ∧
    findVal (buildRequest c command (some ps)) "command" =
      some ((lastKept ps "command").getD command) := by
  refine ⟨rfl, rfl, ?_, ?_⟩
  · rw [buildRequest_some, findVal_applyParams]
    cases h : lastKept ps "key" <;> simp [h, findVal_cons]
  · rw [buildRequest_some, findVal_applyParams]
    cases h : lastKept ps "command" <;> simp [h, findVal_cons]

/-! ## Claim C4 -/

/-- Claim C4, counterexample.  The claim states that a caller parameter whose
value is the empty string does not appear in the built request at all; but a
caller parameter named key with an empty value is skipped while the field
key still appears, carrying the credential. -/
theorem c4_counterexample :
    findVal
      (buildRequest (DynadotClient.make "secret" false 30000) "list_domain"
        (some [("key", some "")])) "key" = some "secret" := rfl

/-- Claim C4, amended.  For caller parameters with pairwise-distinct names:
a parameter whose value is absent or empty contributes no field — its name is
absent from the built request unless it is one of the two reserved names key
and command, which are always present; and every parameter with a non-empty
value appears in the built request with exactly that value. -/
theorem c4_param_filtering (c : DynadotClient) (command : String) (ps : Params)
    (k : String) (hnd : (ps.map Prod.fst).Nodup) :
    (∀ x, (k, x) ∈ ps → keptValue x = none → k ≠ "key" → k ≠ "command" →
      findVal (buildRequest c command (some ps)) k = none) ∧
    (∀ v, (k, some v) ∈ ps → v ≠ "" →
      findVal (buildRequest c command (some ps)) k = some v) := by
  constructor
  · intro x hmem hkept hk1 hk2
    rw [buildRequest_some, findVal_applyParams,
      lastKept_eq_of_mem_nodup ps k x hnd hmem, hkept]
    simp [findVal_cons, findVal_nil, Ne.symm hk1, Ne.symm hk2]
  · intro v hmem hv
    rw [buildRequest_some, findVal_applyParams,
      lastKept_eq_of_mem_nodup ps k (some v) hnd hmem]
    simp [keptValue, hv]

/-- Claim C4, witness at a concrete parameter list: the empty-valued and the
undefined entries leave no field, the non-empty one appears verbatim. -/
theorem c4_witness :
    findVal
      (buildRequest (DynadotClient.make "secret" false 30000) "register"
        (some [("a", some "1"), ("b", some ""), ("c", none)])) "b" = none ∧
    findVal
      (buildRequest (DynadotClient.make "secret" false 30000) "register"
        (some [("a", some "1"), ("b", some ""), ("c", none)])) "c" = none ∧
    findVal
      (buildRequest (DynadotClient.make "secret" false 30000) "register"
        (some [("a", some "1"), ("b", some ""), ("c", none)])) "a" = some "1" := by
  refine ⟨?_, ?_, ?_⟩
  · exact (c4_param_filtering (DynadotClient.make "secret" false 30000) "register"
      [("a", some "1"), ("b", some ""), ("c", none)] "b" (by decide)).1
      (some "") (by decide) (by decide) (by decide) (by decide)
  · exact (c4_param_filtering (DynadotClient.make "secret" false 30000) "register"
      [("a", some "1"), ("b", some ""), ("c", none)] "c" (by decide)).1
      none (by decide) (by decide) (by decide) (by decide)
  · exact (c4_param_filtering (DynadotClient.make "secret" false 30000) "register"
      [("a", some "1"), ("b", some ""), ("c", none)] "a" (by decide)).2
      "1" (by decide) (by decide)

/-! ## Claim C6 -/

/-- Claim C6.  When the exchange completes with a status outside the success
range, the call produces the HTTP transport failure naming the status code
and status text, for every response body whatsoever — in particular for
well-formed JSON bodies, which are thus never parsed or classified. -/
theorem c6_http_error (c : DynadotClient) (command : String)
    (params : Option Params)
    (network : List (String × String) → FetchOutcome)
    (status : Nat) (statusText : String) (body : BodyParse)
    (hnet : network (buildRequest c command params) =
      .completed { status := status, statusText := statusText, body := body })
    (hstatus : ¬ (200 ≤ status ∧ status ≤ 299)) :
    c.call command params network =
      .httpError ("Dynadot API HTTP error: " ++ natToDecimal status ++
        " " ++ statusText) := by
  have hok : responseOk status = false := by
    rw [← Bool.not_eq_true, responseOk_iff]
    exact hstatus
  rw [DynadotClient.call, hnet]
  simp [hok]

/-- Claim C6, witness: a 500 exchange whose body even holds a well-formed
error envelope still surfaces as the HTTP transport failure. -/
theorem c6_witness :
    (DynadotClient.make "secret" false 30000).call "list_domain" none
      (fun _ => .completed
        { status := 500
          statusText := "Internal Server Error"
          body := .ok (.obj [("FooResponse",
            .obj [("ResponseCode", .num (-1)), ("Error", .str "bad domain")])]) })
      = .httpError "Dynadot API HTTP error: 500 Internal Server Error" := by
  have h := c6_http_error (DynadotClient.make "secret" false 30000) "list_domain"
    none
    (fun _ => .completed
      { status := 500
        statusText := "Internal Server Error"
        body := .ok (.obj [("FooResponse",
          .obj [("ResponseCode", .num (-1)), ("Error", .str "bad domain")])]) })
    500 "Internal Server Error"
    (.ok (.obj [("FooResponse",
      .obj [("ResponseCode", .num (-1)), ("Error", .str "bad domain")])]))
    rfl (by decide)
  rw [h]
  rfl

/-! ## Claim C7 -/

/-- Claim C7.  For a client constructed at the default deadline (30000 ms):
when the exchange is aborted by the deadline (the fetch rejection named
AbortError, which the abort controller of the source produces exactly when
its timer fires), the call is the timeout failure whose message carries both
the command name and the configured duration; any other failure of the
exchange is rethrown as a distinct transport failure carrying the underlying
cause unchanged. -/
theorem c7_timeout_classification (apiKey : String) (sandbox : Bool)
    (command : String) (params : Option Params)
    (network : List (String × String) → FetchOutcome) :
    defaultTimeoutMs = 30000 ∧
    (network (buildRequest (DynadotClient.makeDefault apiKey sandbox) command
        params) = .failed "AbortError" "The operation was aborted" →
      (DynadotClient.makeDefault apiKey sandbox).call command params network =
        .timeoutError ("Dynadot API request timed out after " ++
          natToDecimal defaultTimeoutMs ++ "ms: " ++ command) ∧
      ∃ pre, ("Dynadot API request timed out after " ++
          natToDecimal defaultTimeoutMs ++ "ms: " ++ command) = pre ++ command ∧
        ∃ a b, ("Dynadot API request timed out after " ++
          natToDecimal defaultTimeoutMs ++ "ms: " ++ command) =
            a ++ natToDecimal defaultTimeoutMs ++ b) ∧
    (∀ name message, name ≠ "AbortError" →
      network (buildRequest (DynadotClient.makeDefault apiKey sandbox) command
        params) = .failed name message →
      (DynadotClient.makeDefault apiKey sandbox).call command params network =
        .transportError message) := by
  refine ⟨rfl, ?_, ?_⟩
  · intro hnet
    refine ⟨?_, ?_⟩
    · rw [DynadotClient.call, hnet]
      rfl
    · refine ⟨"Dynadot API request timed out after " ++
        natToDecimal defaultTimeoutMs ++ "ms: ", ?_, ?_⟩
      · rw [String.append_assoc]
      · exact ⟨"Dynadot API request timed out after ",
          "ms: " ++ command, by rw [String.append_assoc, String.append_assoc]⟩
  · intro name message hname hnet
    rw [DynadotClient.call, hnet]
    simp [hname]

/-- Claim C7, witness: the aborted exchange at the default deadline yields
the timeout message for the command, and a connection failure is rethrown as
the transport failure carrying its cause. -/
theorem c7_witness :
    (DynadotClient.makeDefault "secret" false).call "get_dns" none
      (fun _ => .failed "AbortError" "The operation was aborted")
      = .timeoutError "Dynadot API request timed out after 30000ms: get_dns" ∧
    (DynadotClient.makeDefault "secret" false).call "get_dns" none
      (fun _ => .failed "TypeError" "fetch failed")
      = .transportError "fetch failed" := by
  constructor
  · have h := (c7_timeout_classification "secret" false "get_dns" none
      (fun _ => .failed "AbortError" "The operation was aborted")).2.1 rfl
    rw [h.1]
    rfl
  · exact (c7_timeout_classification "secret" false "get_dns" none
      (fun _ => .failed "TypeError" "fetch failed")).2.2
      "TypeError" "fetch failed" (by decide) rfl



/-! ## Claim C2 -/

/-- Claim C2.  For a parsed 200-response body whose first top-level key ending
in Response (in iteration order) wraps an object carrying ResponseCode -1 or
Status error, the call is the Application failure, and its message is the
wrapped object's Error field when that is set, else its Message field when
that is set, else the JSON serialization of the whole wrapped object. -/
theorem c2_envelope_error (c : DynadotClient) (command : String)
    (params : Option Params)
    (network : List (String × String) → FetchOutcome)
    (fields : List (String × Json)) (statusText : String)
    (responseKey : String) (inner : Json)
    (hnet : network (buildRequest c command params) =
      .completed ⟨200, statusText, .ok (.obj fields)⟩)
    (hfind : (fields.map Prod.fst).find? (fun k => strEndsWith k "Response") =
      some responseKey)
    (hget : Json.getProp (.obj fields) responseKey = some inner)
    (herr : inner.getProp "ResponseCode" = some (.num (-1)) ∨
      inner.getProp "Status" = some (.str "error")) :
    c.call command params network =
      .apiError ("Dynadot API error: " ++ envelopeErrorMessage inner) ∧
    ((∃ e, inner.getProp "Error" = some e ∧ e.truthy = true ∧
        envelopeErrorMessage inner = e.jsToString) ∨
      (optTruthy (inner.getProp "Error") = false ∧
        ∃ m, inner.getProp "Message" = some m ∧ m.truthy = true ∧
          envelopeErrorMessage inner = m.jsToString) ∨
      (optTruthy (inner.getProp "Error") = false ∧
        optTruthy (inner.getProp "Message") = false ∧
        envelopeErrorMessage inner = inner.stringify)) := by
  have hcond : (isResponseCodeNegOne (inner.getProp "ResponseCode")
      || isStatusError (inner.getProp "Status")) = true := by
    rcases herr with h | h
    · rw [Bool.or_eq_true, isResponseCodeNegOne_iff]
      exact Or.inl h
    · rw [Bool.or_eq_true, isStatusError_iff]
      exact Or.inr h
  constructor
  · rw [DynadotClient.call, hnet]
    have hok : responseOk 200 = true := by decide
    simp only [hok, if_true]
    have htop : (Json.obj fields).topKeys = fields.map Prod.fst := rfl
    rw [normalizeBody, htop, hfind]
    simp [hget, hcond]
  · by_cases he : optTruthy (inner.getProp "Error") = true
    · left
      match hE : inner.getProp "Error" with
      | none =>
          rw [hE] at he
          simp [optTruthy] at he
      | some e =>
          refine ⟨e, rfl, ?_, ?_⟩
          · rw [hE] at he
            simpa [optTruthy] using he
          · rw [envelopeErrorMessage, he]
            simp [hE]
    · have he2 : optTruthy (inner.getProp "Error") = false := by simpa using he
      by_cases hm : optTruthy (inner.getProp "Message") = true
      · right; left
        match hM : inner.getProp "Message" with
        | none =>
            rw [hM] at hm
            simp [optTruthy] at hm
        | some m =>
            refine ⟨he2, m, rfl, ?_, ?_⟩
            · rw [hM] at hm
              simpa [optTruthy] using hm
            · rw [envelopeErrorMessage, he2]
              simp only [Bool.false_eq_true, if_false]
              rw [hm]
              simp [hM]
      · have hm2 : optTruthy (inner.getProp "Message") = false := by simpa using hm
        refine Or.inr (Or.inr ⟨he2, hm2, ?_⟩)
        rw [envelopeErrorMessage, he2, hm2]
        simp

/-- Claim C2, witness at the body from the specification: the simulated
response holding FooResponse with ResponseCode -1 and Error bad domain yields
the Application failure carrying bad domain. -/
theorem c2_witness :
    (DynadotClient.make "secret" false 30000).call "search" none
      (fun _ => .completed
        { status := 200, statusText := "OK"
          body := .ok (.obj [("FooResponse",
            .obj [("ResponseCode", .num (-1)), ("Error", .str "bad domain")])]) })
      = .apiError "Dynadot API error: bad domain" := by
  have h := c2_envelope_error (DynadotClient.make "secret" false 30000) "search"
    none
    (fun _ => .completed
      { status := 200, statusText := "OK"
        body := .ok (.obj [("FooResponse",
          .obj [("ResponseCode", .num (-1)), ("Error", .str "bad domain")])]) })
    [("FooResponse", .obj [("ResponseCode", .num (-1)), ("Error", .str "bad domain")])]
    "OK" "FooResponse"
    (.obj [("ResponseCode", .num (-1)), ("Error", .str "bad domain")])
    rfl (by decide) rfl (Or.inl rfl)
  rw [h.1]
  have hmsg : envelopeErrorMessage
      (.obj [("ResponseCode", .num (-1)), ("Error", .str "bad domain")])
      = "bad domain" := by
    simp [envelopeErrorMessage, Json.getProp, optTruthy, Json.truthy,
      Json.jsToString]
  rw [hmsg]
  rfl

/-! ## Claim C3 -/

/-- Claim C3.  For a parsed 200-response body in which no top-level key ends
with Response, or the first such key wraps a value carrying neither a
ResponseCode equal to the number -1 nor a Status equal to the string error,
the call returns the entire parsed body as the success value, unmodified. -/
theorem c3_success_passthrough (c : DynadotClient) (command : String)
    (params : Option Params)
    (network : List (String × String) → FetchOutcome)
    (fields : List (String × Json)) (statusText : String)
    (hnet : network (buildRequest c command params) =
      .completed ⟨200, statusText, .ok (.obj fields)⟩)
    (hbenign : (∀ k ∈ fields.map Prod.fst, strEndsWith k "Response" = false) ∨
      (∃ responseKey inner,
        (fields.map Prod.fst).find? (fun k => strEndsWith k "Response") =
          some responseKey ∧
        Json.getProp (.obj fields) responseKey = some inner ∧
        inner.getProp "ResponseCode" ≠ some (.num (-1)) ∧
        inner.getProp "Status" ≠ some (.str "error"))) :
    c.call command params network = .success (.obj fields) := by
  rw [DynadotClient.call, hnet]
  have hok : responseOk 200 = true := by decide
  simp only [hok, if_true]
  rw [normalizeBody]
  have htop : (Json.obj fields).topKeys = fields.map Prod.fst := rfl
  rw [htop]
  rcases hbenign with hnone | ⟨responseKey, inner, hfind, hget, hrc, hst⟩
  · have hfind : (fields.map Prod.fst).find?
        (fun k => strEndsWith k "Response") = none := by
      rw [List.find?_eq_none]
      intro k hk
      simp [hnone k hk]
    rw [hfind]
  · rw [hfind]
    have hcond : (isResponseCodeNegOne (inner.getProp "ResponseCode")
        || isStatusError (inner.getProp "Status")) = false := by
      rw [Bool.or_eq_false_iff]
      constructor
      · rw [← Bool.not_eq_true, isResponseCodeNegOne_iff]
        exact hrc
      · rw [← Bool.not_eq_true, isStatusError_iff]
        exact hst
    simp [hget, hcond]

/-- Claim C3, witness at the two bodies from the specification: a wrapped
payload signalling no error comes back whole, and a body with no key ending
in Response comes back whole, neither misclassified as a failure. -/
theorem c3_witness :
    (DynadotClient.make "secret" false 30000).call "list_domain" none
      (fun _ => .completed
        { status := 200, statusText := "OK"
          body := .ok (.obj [("FooResponse",
            .obj [("ResponseCode", .num 0),
              ("Domains", .arr [.str "a.com", .str "b.net"])])]) })
      = .success (.obj [("FooResponse",
          .obj [("ResponseCode", .num 0),
            ("Domains", .arr [.str "a.com", .str "b.net"])])]) ∧
    (DynadotClient.make "secret" false 30000).call "is_processing" none
      (fun _ => .completed
        { status := 200, statusText := "OK"
          body := .ok (.obj [("Processing", .str "no")]) })
      = .success (.obj [("Processing", .str "no")]) := by
  constructor
  · exact c3_success_passthrough (DynadotClient.make "secret" false 30000)
      "list_domain" none _
      [("FooResponse", .obj [("ResponseCode", .num 0),
        ("Domains", .arr [.str "a.com", .str "b.net"])])] "OK" rfl
      (Or.inr ⟨"FooResponse",
        .obj [("ResponseCode", .num 0),
          ("Domains", .arr [.str "a.com", .str "b.net"])],
        by decide, rfl, by simp [Json.getProp], by simp [Json.getProp]⟩)
  · exact c3_success_passthrough (DynadotClient.make "secret" false 30000)
      "is_processing" none _
      [("Processing", .str "no")] "OK" rfl
      (Or.inl (by decide))

/-! ## Claim C8 -/

/-- Claim C8.  At startup, an absent credential makes configuration loading
throw, so the process does not start; a present non-empty credential loads a
configuration carrying it, whose sandbox flag is set exactly when the
DYNADOT_SANDBOX variable is the string true or the string 1, and the client
then constructed selects the sandbox endpoint exactly in that case and the
production endpoint otherwise. -/
theorem c8_config_loading (env : Env) :
    (env.DYNADOT_API_KEY = none → serverStartup env = .fatal missingKeyMessage) ∧
    (∀ s, env.DYNADOT_API_KEY = some s → s ≠ "" →
      ∃ cfg, loadConfig env = .ok cfg ∧
        serverStartup env =
          .started cfg (DynadotClient.makeDefault s cfg.sandbox) ∧
        cfg.apiKey = s ∧
        (cfg.sandbox = true ↔
          (env.DYNADOT_SANDBOX = some "true" ∨ env.DYNADOT_SANDBOX = some "1")) ∧
        ((DynadotClient.makeDefault s cfg.sandbox).baseUrl = SANDBOX_URL ↔
          (env.DYNADOT_SANDBOX = some "true" ∨ env.DYNADOT_SANDBOX = some "1")) ∧
        ((DynadotClient.makeDefault s cfg.sandbox).baseUrl = PROD_URL ↔
          ¬ (env.DYNADOT_SANDBOX = some "true" ∨
            env.DYNADOT_SANDBOX = some "1"))) := by
  constructor
  · intro hnone
    rw [serverStartup, loadConfig, hnone]
    rfl
  · intro s hsome hne
    have htruthy : envTruthy env.DYNADOT_API_KEY = true := by
      rw [hsome, envTruthy]
      simpa using hne
    have hload : loadConfig env = .ok
        { apiKey := s
          sandbox := env.DYNADOT_SANDBOX = some "true" ∨
            env.DYNADOT_SANDBOX = some "1" } := by
      rw [loadConfig, if_pos htruthy, hsome]
      rfl
    refine ⟨_, hload, ?_, rfl, ?_, ?_, ?_⟩
    · rw [serverStartup, hload]
    · simp
    · show (DynadotClient.makeDefault s (decide _)).baseUrl = SANDBOX_URL ↔ _
      by_cases hP : env.DYNADOT_SANDBOX = some "true" ∨ env.DYNADOT_SANDBOX = some "1"
      · simp [DynadotClient.makeDefault, DynadotClient.make, hP]
      · simp [DynadotClient.makeDefault, DynadotClient.make, hP]
        decide
    · show (DynadotClient.makeDefault s (decide _)).baseUrl = PROD_URL ↔ _
      by_cases hP : env.DYNADOT_SANDBOX = some "true" ∨ env.DYNADOT_SANDBOX = some "1"
      · simp [DynadotClient.makeDefault, DynadotClient.make, hP]
        decide
      · simp [DynadotClient.makeDefault, DynadotClient.make, hP]

/-- Claim C8, witness: a missing credential is fatal with the documented
message; a present credential with the sandbox flag set to true starts the
client against the sandbox endpoint. -/
theorem c8_witness :
    serverStartup { DYNADOT_API_KEY := none, DYNADOT_SANDBOX := none } =
      .fatal missingKeyMessage ∧
    ∃ cfg, loadConfig { DYNADOT_API_KEY := some "k", DYNADOT_SANDBOX := some "true" }
        = .ok cfg ∧ cfg.apiKey = "k" ∧
      (DynadotClient.makeDefault "k" cfg.sandbox).baseUrl = SANDBOX_URL := by
  constructor
  · exact (c8_config_loading
      { DYNADOT_API_KEY := none, DYNADOT_SANDBOX := none }).1 rfl
  · obtain ⟨cfg, h1, _, h3, _, h5, _⟩ := (c8_config_loading
      { DYNADOT_API_KEY := some "k", DYNADOT_SANDBOX := some "true" }).2
      "k" rfl (by decide)
    exact ⟨cfg, h1, h3, h5.mpr (Or.inl rfl)⟩

/-! ## Claim C9 -/

/-- Claim C9.  Every failure of a client call is caught by the registered
handlers: the get_dns tool handler replies with the failure message as plain
text after its Failed-to prefix together with the isError marker, and the
account resource handler replies with the serialized error object carrying
the message — in both cases a non-empty structured reply, never a propagated
exception (the handlers are total functions into replies) and never a silent
empty result. -/
theorem c9_handlers_render_failures (outcome : CallOutcome) (m : String)
    (hfail : outcome.thrownMessage = some m) :
    getDnsToolHandler outcome =
      { content := [{ text := "Failed to get DNS records: " ++ m }]
        isError := true } ∧
    (∃ pre, "Failed to get DNS records: " ++ m = pre ++ m) ∧
    (getDnsToolHandler outcome).content ≠ [] ∧
    accountResourceHandler outcome =
      { contents := [{ uri := "dynadot://account"
                       mimeType := "application/json"
                       text := Json.stringifyPretty
                         (.obj [("error", .str m)]) }] } ∧
    (accountResourceHandler outcome).contents ≠ [] := by
  cases outcome with
  | success body => simp [CallOutcome.thrownMessage] at hfail
  | timeoutError msg =>
      obtain rfl : msg = m := by
        simpa [CallOutcome.thrownMessage] using hfail
      exact ⟨rfl, ⟨"Failed to get DNS records: ", rfl⟩, by simp [getDnsToolHandler],
        rfl, by simp [accountResourceHandler]⟩
  | transportError msg =>
      obtain rfl : msg = m := by
        simpa [CallOutcome.thrownMessage] using hfail
      exact ⟨rfl, ⟨"Failed to get DNS records: ", rfl⟩, by simp [getDnsToolHandler],
        rfl, by simp [accountResourceHandler]⟩
  | httpError msg =>
      obtain rfl : msg = m := by
        simpa [CallOutcome.thrownMessage] using hfail
      exact ⟨rfl, ⟨"Failed to get DNS records: ", rfl⟩, by simp [getDnsToolHandler],
        rfl, by simp [accountResourceHandler]⟩
  | parseError msg =>
      obtain rfl : msg = m := by
        simpa [CallOutcome.thrownMessage] using hfail
      exact ⟨rfl, ⟨"Failed to get DNS records: ", rfl⟩, by simp [getDnsToolHandler],
        rfl, by simp [accountResourceHandler]⟩
  | apiError msg =>
      obtain rfl : msg = m := by
        simpa [CallOutcome.thrownMessage] using hfail
      exact ⟨rfl, ⟨"Failed to get DNS records: ", rfl⟩, by simp [getDnsToolHandler],
        rfl, by simp [accountResourceHandler]⟩

/-- Claim C9, witness at a concrete Application failure: the tool reply
carries the message with the error marker, the resource reply carries the
serialized error object. -/
theorem c9_witness :
    getDnsToolHandler (.apiError "Dynadot API error: bad domain") =
      { content := [{ text :=
          "Failed to get DNS records: Dynadot API error: bad domain" }]
        isError := true } ∧
    accountResourceHandler (.apiError "Dynadot API error: bad domain") =
      { contents := [{ uri := "dynadot://account"
                       mimeType := "application/json"
                       text := Json.stringifyPretty
                         (.obj [("error",
                           .str "Dynadot API error: bad domain")]) }] } := by
  have h := c9_handlers_render_failures
    (.apiError "Dynadot API error: bad domain")
    "Dynadot API error: bad domain" rfl
  exact ⟨h.1, h.2.2.2.1⟩

/-! ## Claim C10 -/

/-- Claim C10.  In every wrapper that spreads a caller record after a fixed
positional property (setDns, editContact, setWhoisContacts are the cited
representatives), a record entry named like the fixed property replaces the
positional argument's value in the parameter mapping handed to the
transport: the mapping carries the record's value, whatever positional value
was given. -/
theorem c10_spread_overrides_positional (domain contactId v : String)
    (records fields contacts : RecordEntries) :
    ((records.map Prod.fst).Nodup → ("domain", v) ∈ records →
      findParamVal (DynadotClient.setDnsParams domain records) "domain" =
        some (some v)) ∧
    ((fields.map Prod.fst).Nodup → ("contact_id", v) ∈ fields →
      findParamVal (DynadotClient.editContactParams contactId fields)
        "contact_id" = some (some v)) ∧
    ((contacts.map Prod.fst).Nodup → ("domain", v) ∈ contacts →
      findParamVal (DynadotClient.setWhoisContactsParams domain contacts)
        "domain" = some (some v)) := by
  refine ⟨?_, ?_, ?_⟩
  · intro hnd hmem
    rw [DynadotClient.setDnsParams, findParamVal_recordToParams,
      findVal_objMerge, lastSet_eq_of_mem_nodup records "domain" v hnd hmem]
    rfl
  · intro hnd hmem
    rw [DynadotClient.editContactParams, findParamVal_recordToParams,
      findVal_objMerge, lastSet_eq_of_mem_nodup fields "contact_id" v hnd hmem]
    rfl
  · intro hnd hmem
    rw [DynadotClient.setWhoisContactsParams, findParamVal_recordToParams,
      findVal_objMerge, lastSet_eq_of_mem_nodup contacts "domain" v hnd hmem]
    rfl

/-- Claim C10, witness: a records entry named domain redirects the set_dns2
parameters away from the positional domain, and likewise for the contact
identifier of edit_contact. -/
theorem c10_witness :
    findParamVal
      (DynadotClient.setDnsParams "good.com"
        [("main_record_type", "a"), ("domain", "evil.com")]) "domain"
      = some (some "evil.com") ∧
    findParamVal
      (DynadotClient.editContactParams "123" [("contact_id", "999")])
      "contact_id" = some (some "999") := by
  constructor
  · exact (c10_spread_overrides_positional "good.com" "" "evil.com"
      [("main_record_type", "a"), ("domain", "evil.com")] [] []).1
      (by decide) (by decide)
  · exact (c10_spread_overrides_positional "" "123" "999" []
      [("contact_id", "999")] []).2.1 (by decide) (by decide)



/-! ## Claim C5 -/

theorem indexedKey_injective (pre : String) :
    Function.Injective (fun i => pre ++ natToDecimal i) := by
  intro a b h
  exact natToDecimal_inj (string_append_inj h)

theorem indexedKeys_nodup (pre : String) (xs : List String) :
    ((xs.enum.map (fun p => (pre ++ natToDecimal p.1, p.2))).map
      Prod.fst).Nodup := by
  rw [List.map_map]
  have heq : (Prod.fst ∘ fun p : Nat × String => (pre ++ natToDecimal p.1, p.2))
      = (fun i => pre ++ natToDecimal i) ∘ Prod.fst := rfl
  rw [heq, ← List.map_map]
  exact List.Nodup.map (indexedKey_injective pre) (List.nodup_enum_map_fst xs)

theorem mem_indexed_key (pre : String) (xs : List String) (k : String)
    (hk : k ∈ (xs.enum.map (fun p => (pre ++ natToDecimal p.1, p.2))).map
      Prod.fst) :
    ∃ i, k = pre ++ natToDecimal i := by
  simp only [List.map_map, List.mem_map] at hk
  obtain ⟨q, _, hq⟩ := hk
  exact ⟨q.1, hq.symm⟩

theorem mem_indexed_val (pre : String) (xs : List String) (p : String × String)
    (hp : p ∈ xs.enum.map (fun q => (pre ++ natToDecimal q.1, q.2))) :
    p.2 ∈ xs := by
  obtain ⟨q, hq, rfl⟩ := List.mem_map.mp hp
  exact List.snd_mem_of_mem_enumFrom hq

theorem searchOptionParams_spec (options : Option SearchOptions) :
    ∀ p ∈ searchOptionParams options,
      p = ("show_price", "1") ∨ (p.1 = "currency" ∧ p.2 ≠ "") ∨
        (p.1 = "language" ∧ p.2 ≠ "") := by
  intro p hp
  match options with
  | none => simp [searchOptionParams] at hp
  | some o =>
      rw [searchOptionParams] at hp
      rcases List.mem_append.mp hp with h1 | hc
      · rcases List.mem_append.mp h1 with ha | hb
        · left
          by_cases hsp : o.showPrice = some true <;> simp [hsp] at ha
          exact ha
        · right; left
          match hcur : o.currency with
          | none => rw [hcur] at hb; simp at hb
          | some cur =>
              rw [hcur] at hb
              by_cases he : cur = "" <;> simp [he] at hb
              exact ⟨by rw [hb], by rw [hb]; exact he⟩
      · right; right
        match hlang : o.language with
        | none => rw [hlang] at hc; simp at hc
        | some lang =>
            rw [hlang] at hc
            by_cases he : lang = "" <;> simp [he] at hc
            exact ⟨by rw [hc], by rw [hc]; exact he⟩

theorem searchOptionParams_keys (options : Option SearchOptions) (k : String)
    (hk : k ∈ (searchOptionParams options).map Prod.fst) :
    k = "show_price" ∨ k = "currency" ∨ k = "language" := by
  obtain ⟨p, hp, rfl⟩ := List.mem_map.mp hk
  rcases searchOptionParams_spec options p hp with h | h | h
  · left; rw [h]
  · right; left; exact h.1
  · right; right; exact h.1

theorem searchOptionParams_vals (options : Option SearchOptions)
    (p : String × String) (hp : p ∈ searchOptionParams options) : p.2 ≠ "" := by
  rcases searchOptionParams_spec options p hp with h | h | h
  · rw [h]; decide
  · exact h.2
  · exact h.2

theorem searchOptionParams_keys_nodup (options : Option SearchOptions) :
    ((searchOptionParams options).map Prod.fst).Nodup := by
  have hsub : List.Sublist ((searchOptionParams options).map Prod.fst)
      ["show_price", "currency", "language"] := by
    match options with
    | none => simp [searchOptionParams]
    | some o =>
        rw [searchOptionParams, List.map_append, List.map_append]
        have hA : List.Sublist (List.map Prod.fst
            (if o.showPrice = some true then [("show_price", "1")] else []))
            ["show_price"] := by
          split_ifs <;> simp
        have hB : List.Sublist (List.map Prod.fst
            (match o.currency with
             | some cur => if cur ≠ "" then [("currency", cur)] else []
             | none => [])) ["currency"] := by
          match o.currency with
          | none => simp
          | some cur => by_cases hc : cur = "" <;> simp [hc]
        have hC : List.Sublist (List.map Prod.fst
            (match o.language with
             | some lang => if lang ≠ "" then [("language", lang)] else []
             | none => [])) ["language"] := by
          match o.language with
          | none => simp
          | some lang => by_cases hl : lang = "" <;> simp [hl]
        exact (hA.append hB).append hC
  exact hsub.nodup (by decide)

/-- The outbound request built from a record of distinct, non-reserved,
non-empty entries: the two authentication fields followed by the record. -/
theorem buildRequest_recordToParams_eq (c : DynadotClient) (command : String)
    (r : RecordEntries)
    (hval : ∀ p ∈ r, p.2 ≠ "")
    (hnd : (r.map Prod.fst).Nodup)
    (hkeys : ∀ p ∈ r, p.1 ≠ "key" ∧ p.1 ≠ "command") :
    buildRequest c command (some (recordToParams r)) =
      [("key", c.apiKey), ("command", command)] ++ r := by
  have hkept : keptList (recordToParams r) = r := by
    rw [keptList_recordToParams]
    apply List.filter_eq_self.mpr
    intro p hp
    simpa using hval p hp
  rw [buildRequest_some,
    applyParams_eq_append (recordToParams r) _ (by rw [hkept]; exact hnd) ?_,
    hkept]
  rw [hkept]
  intro q hq p hp
  rcases hkeys q hq with ⟨hq1, hq2⟩
  rcases (by simpa using hp : p = ("key", c.apiKey) ∨ p = ("command", command))
      with rfl | rfl
  · exact fun hcontra => hq1 hcontra.symm
  · exact fun hcontra => hq2 hcontra.symm

theorem c5_search_lookup (c : DynadotClient) (domains : List String)
    (options : Option SearchOptions)
    (hdom : ∀ d ∈ domains, d ≠ "") (i : Nat) :
    findVal
      (buildRequest c "search"
        (some (DynadotClient.searchParams domains options)))
      ("domain" ++ natToDecimal i) = domains.get? i := by
  have hreq : buildRequest c "search"
      (some (DynadotClient.searchParams domains options))
      = [("key", c.apiKey), ("command", "search")] ++
        (domains.enum.map (fun p => ("domain" ++ natToDecimal p.1, p.2))
          ++ searchOptionParams options) := by
    rw [DynadotClient.searchParams]
    apply buildRequest_recordToParams_eq
    · intro p hp
      rcases List.mem_append.mp hp with h | h
      · exact hdom p.2 (mem_indexed_val "domain" domains p h)
      · exact searchOptionParams_vals options p h
    · rw [List.map_append, List.nodup_append]
      refine ⟨indexedKeys_nodup "domain" domains,
        searchOptionParams_keys_nodup options, ?_⟩
      intro a ha hb
      obtain ⟨i2, rfl⟩ := mem_indexed_key "domain" domains a ha
      rcases searchOptionParams_keys options _ hb with h | h | h
      · exact string_append_ne_of_head_ne "domain" (natToDecimal i2)
          "show_price" 'd' 's' rfl rfl (by decide) h
      · exact string_append_ne_of_head_ne "domain" (natToDecimal i2)
          "currency" 'd' 'c' rfl rfl (by decide) h
      · exact string_append_ne_of_head_ne "domain" (natToDecimal i2)
          "language" 'd' 'l' rfl rfl (by decide) h
    · intro p hp
      rcases List.mem_append.mp hp with h | h
      · obtain ⟨q, _, rfl⟩ := List.mem_map.mp h
        exact ⟨string_append_ne_of_head_ne "domain" (natToDecimal q.1)
            "key" 'd' 'k' rfl rfl (by decide),
          string_append_ne_of_head_ne "domain" (natToDecimal q.1)
            "command" 'd' 'c' rfl rfl (by decide)⟩
      · have hin : p.1 ∈ (searchOptionParams options).map Prod.fst :=
          List.mem_map_of_mem Prod.fst h
        rcases searchOptionParams_keys options p.1 hin with h1 | h1 | h1 <;>
          rw [h1] <;> exact ⟨by decide, by decide⟩
  rw [hreq, findVal_append, findVal_append]
  have hbase : findVal [("key", c.apiKey), ("command", "search")]
      ("domain" ++ natToDecimal i) = none := by
    apply findVal_eq_none_of_keys
    intro p hp
    rcases (by simpa using hp : p = ("key", c.apiKey) ∨ p = ("command", "search"))
        with rfl | rfl
    · exact Ne.symm (string_append_ne_of_head_ne "domain" (natToDecimal i)
        "key" 'd' 'k' rfl rfl (by decide))
    · exact Ne.symm (string_append_ne_of_head_ne "domain" (natToDecimal i)
        "command" 'd' 'c' rfl rfl (by decide))
  have hopts : findVal (searchOptionParams options)
      ("domain" ++ natToDecimal i) = none := by
    apply findVal_eq_none_of_keys
    intro p hp
    have hin : p.1 ∈ (searchOptionParams options).map Prod.fst :=
      List.mem_map_of_mem Prod.fst hp
    rcases searchOptionParams_keys options p.1 hin with h1 | h1 | h1 <;> rw [h1]
    · exact Ne.symm (string_append_ne_of_head_ne "domain" (natToDecimal i)
        "show_price" 'd' 's' rfl rfl (by decide))
    · exact Ne.symm (string_append_ne_of_head_ne "domain" (natToDecimal i)
        "currency" 'd' 'c' rfl rfl (by decide))
    · exact Ne.symm (string_append_ne_of_head_ne "domain" (natToDecimal i)
        "language" 'd' 'l' rfl rfl (by decide))
  rw [hbase, hopts, Option.none_or, Option.or_none]
  have h0 : domains.enum = List.enumFrom 0 domains := rfl
  rw [h0, findVal_indexedList "domain" domains 0 i]
  simp

theorem c5_ns_lookup (c : DynadotClient) (domain : String)
    (nameservers : List String)
    (hns : ∀ d ∈ nameservers, d ≠ "") (i : Nat) :
    findVal
      (buildRequest c "set_ns"
        (some (DynadotClient.setNameserversParams domain nameservers)))
      ("ns" ++ natToDecimal i) = nameservers.get? i := by
  have hidxval : ∀ p ∈ nameservers.enum.map
      (fun q => ("ns" ++ natToDecimal q.1, q.2)), p.2 ≠ "" := by
    intro p hp
    exact hns p.2 (mem_indexed_val "ns" nameservers p hp)
  have hidxkeys : ∀ p ∈ nameservers.enum.map
      (fun q => ("ns" ++ natToDecimal q.1, q.2)),
      p.1 ≠ "key" ∧ p.1 ≠ "command" ∧ p.1 ≠ "domain" := by
    intro p hp
    obtain ⟨q, _, rfl⟩ := List.mem_map.mp hp
    exact ⟨string_append_ne_of_head_ne "ns" (natToDecimal q.1)
        "key" 'n' 'k' rfl rfl (by decide),
      string_append_ne_of_head_ne "ns" (natToDecimal q.1)
        "command" 'n' 'c' rfl rfl (by decide),
      string_append_ne_of_head_ne "ns" (natToDecimal q.1)
        "domain" 'n' 'd' rfl rfl (by decide)⟩
  have hidxnd : ((nameservers.enum.map
      (fun q => ("ns" ++ natToDecimal q.1, q.2))).map Prod.fst).Nodup :=
    indexedKeys_nodup "ns" nameservers
  have hfilter : (nameservers.enum.map
      (fun q => ("ns" ++ natToDecimal q.1, q.2))).filter
        (fun p => p.2 ≠ "") =
      nameservers.enum.map (fun q => ("ns" ++ natToDecimal q.1, q.2)) := by
    apply List.filter_eq_self.mpr
    intro p hp
    simpa using hidxval p hp
  have hlookup : findVal (nameservers.enum.map
      (fun q => ("ns" ++ natToDecimal q.1, q.2))) ("ns" ++ natToDecimal i)
      = nameservers.get? i := by
    have h0 : nameservers.enum = List.enumFrom 0 nameservers := rfl
    rw [h0, findVal_indexedList "ns" nameservers 0 i]
    simp
  by_cases hd : domain = ""
  · have hkept : keptList (DynadotClient.setNameserversParams domain nameservers)
        = nameservers.enum.map (fun q => ("ns" ++ natToDecimal q.1, q.2)) := by
      rw [DynadotClient.setNameserversParams, keptList_recordToParams,
        List.filter_cons]
      simp only [hd]
      rw [if_neg (by simp)]
      exact hfilter
    rw [buildRequest_some,
      applyParams_eq_append _ _ (by rw [hkept]; exact hidxnd) ?_, hkept,
      findVal_append]
    · have hbase : findVal [("key", c.apiKey), ("command", "set_ns")]
          ("ns" ++ natToDecimal i) = none := by
        apply findVal_eq_none_of_keys
        intro p hp
        rcases (by simpa using hp :
            p = ("key", c.apiKey) ∨ p = ("command", "set_ns")) with rfl | rfl
        · exact Ne.symm (string_append_ne_of_head_ne "ns" (natToDecimal i)
            "key" 'n' 'k' rfl rfl (by decide))
        · exact Ne.symm (string_append_ne_of_head_ne "ns" (natToDecimal i)
            "command" 'n' 'c' rfl rfl (by decide))
      rw [hbase, Option.none_or]
      exact hlookup
    · rw [hkept]
      intro q hq p hp
      rcases (by simpa using hp :
          p = ("key", c.apiKey) ∨ p = ("command", "set_ns")) with rfl | rfl
      · exact fun hcontra => (hidxkeys q hq).1 hcontra.symm
      · exact fun hcontra => (hidxkeys q hq).2.1 hcontra.symm
  · have hkept : keptList (DynadotClient.setNameserversParams domain nameservers)
        = ("domain", domain) ::
          nameservers.enum.map (fun q => ("ns" ++ natToDecimal q.1, q.2)) := by
      rw [DynadotClient.setNameserversParams, keptList_recordToParams,
        List.filter_cons]
      rw [if_pos (by simpa using hd)]
      rw [hfilter]
    have hnd2 : ((("domain", domain) ::
        nameservers.enum.map (fun q => ("ns" ++ natToDecimal q.1, q.2))).map
          Prod.fst).Nodup := by
      rw [List.map_cons, List.nodup_cons]
      constructor
      · intro hcontra
        obtain ⟨i2, hi2⟩ := mem_indexed_key "ns" nameservers "domain" hcontra
        exact string_append_ne_of_head_ne "ns" (natToDecimal i2)
          "domain" 'n' 'd' rfl rfl (by decide) hi2.symm
      · exact hidxnd
    rw [buildRequest_some,
      applyParams_eq_append _ _ (by rw [hkept]; exact hnd2) ?_, hkept,
      findVal_append]
    · have hbase : findVal [("key", c.apiKey), ("command", "set_ns")]
          ("ns" ++ natToDecimal i) = none := by
        apply findVal_eq_none_of_keys
        intro p hp
        rcases (by simpa using hp :
            p = ("key", c.apiKey) ∨ p = ("command", "set_ns")) with rfl | rfl
        · exact Ne.symm (string_append_ne_of_head_ne "ns" (natToDecimal i)
            "key" 'n' 'k' rfl rfl (by decide))
        · exact Ne.symm (string_append_ne_of_head_ne "ns" (natToDecimal i)
            "command" 'n' 'c' rfl rfl (by decide))
      rw [hbase, Option.none_or, findVal_cons,
        if_neg (Ne.symm (string_append_ne_of_head_ne "ns" (natToDecimal i)
          "domain" 'n' 'd' rfl rfl (by decide)))]
      exact hlookup
    · rw [hkept]
      intro q hq p hp
      rcases (by simpa using hp :
          p = ("key", c.apiKey) ∨ p = ("command", "set_ns")) with rfl | rfl <;>
        rcases List.mem_cons.mp hq with rfl | hq2
      · exact (by decide : ("key" : String) ≠ "domain")
      · exact fun hcontra => (hidxkeys q hq2).1 hcontra.symm
      · exact (by decide : ("command" : String) ≠ "domain")
      · exact fun hcontra => (hidxkeys q hq2).2.1 hcontra.symm

/-- Claim C5, counterexample.  The claim states that a list input of length n
always yields exactly n indexed fields; but a list element that is the empty
string is dropped by the empty-value rule, so searching for the single
domain given by the empty string builds a request with no domain0 field at
all. -/
theorem c5_counterexample :
    findVal
      (buildRequest (DynadotClient.make "secret" false 30000) "search"
        (some (DynadotClient.searchParams [""] none))) "domain0" = none := rfl

/-- Claim C5, amended.  For every list input all of whose elements are
non-empty, the built request carries exactly n indexed scalar fields under
the zero-based positional convention (domain0..domain(n-1) for search,
ns0..ns(n-1) for setNameservers), holding the list elements in input order:
the field built from index i holds element i for i below the length and no
such field exists at or beyond the length.  (An empty element is dropped by
the empty-value omission rule, reducing the field count — see the
counterexample.) -/
theorem c5_indexed_fanout (c : DynadotClient) (domains : List String)
    (options : Option SearchOptions) (domain : String)
    (nameservers : List String)
    (hdom : ∀ d ∈ domains, d ≠ "") (hns : ∀ d ∈ nameservers, d ≠ "") :
    (∀ i : Nat,
      findVal
        (buildRequest c "search"
          (some (DynadotClient.searchParams domains options)))
        ("domain" ++ natToDecimal i) = domains.get? i) ∧
    (∀ i : Nat,
      findVal
        (buildRequest c "set_ns"
          (some (DynadotClient.setNameserversParams domain nameservers)))
        ("ns" ++ natToDecimal i) = nameservers.get? i) :=
  ⟨c5_search_lookup c domains options hdom,
    c5_ns_lookup c domain nameservers hns⟩

/-- Claim C5, witness at concrete lists: two domains fan out to domain0 and
domain1 and nothing further; one nameserver fans out to ns0 and nothing
further. -/
theorem c5_witness :
    findVal
      (buildRequest (DynadotClient.make "secret" false 30000) "search"
        (some (DynadotClient.searchParams ["a.com", "b.net"] none)))
      "domain0" = some "a.com" ∧
    findVal
      (buildRequest (DynadotClient.make "secret" false 30000) "search"
        (some (DynadotClient.searchParams ["a.com", "b.net"] none)))
      "domain1" = some "b.net" ∧
    findVal
      (buildRequest (DynadotClient.make "secret" false 30000) "search"
        (some (DynadotClient.searchParams ["a.com", "b.net"] none)))
      "domain2" = none ∧
    findVal
      (buildRequest (DynadotClient.make "secret" false 30000) "set_ns"
        (some (DynadotClient.setNameserversParams "x.com" ["ns1.y.com"])))
      "ns0" = some "ns1.y.com" ∧
    findVal
      (buildRequest (DynadotClient.make "secret" false 30000) "set_ns"
        (some (DynadotClient.setNameserversParams "x.com" ["ns1.y.com"])))
      "ns1" = none := by
  have h := c5_indexed_fanout (DynadotClient.make "secret" false 30000)
    ["a.com", "b.net"] none "x.com" ["ns1.y.com"]
    (by decide) (by decide)
  exact ⟨h.1 0, h.1 1, h.1 2, h.2 0, h.2 1⟩

end DynadotMcp
